import Mathlib

/-!
Verification of the shion_app backend (`src/shion_backend/`):
a shallow embedding in Lean 4 of the tool-use orchestration loop of
`ai_agent.py` (schema bridge `convert_schema`, the function-calling loop of
`process_chat`, the final response extraction) and of the periodic
market-analysis pipeline of `financial_analyst.py` (`run_pdca_check`,
`analyze_news`, `run_analysis_cycle`, the bounded learning-notes log),
together with theorems settling the specification's claims about them.

Python values that flow through these functions (JSON-decoded data, tool
schemas, analysis records, learning notes) are embedded as `PyVal`.
Floating-point literals do not occur in any input these theorems evaluate,
so numbers are embedded as integers.
-/

/-- Embedding of the Python values handled by the backend: strings, ints,
booleans, `None`, lists and (insertion-ordered) dicts. -/
inductive PyVal where
  | str : String → PyVal
  | int : Int → PyVal
  | bool : Bool → PyVal
  | null : PyVal
  | list : List PyVal → PyVal
  | dict : List (String × PyVal) → PyVal

/-- ASCII whitespace, as recognized both by JSON and by `str.strip()` on
the ASCII texts these functions handle. -/
def pyWs (c : Char) : Bool :=
  c = ' ' || c = '\t' || c = '\n' || c = '\r'

/-- Model of Python `str.strip()` (on ASCII whitespace): drop whitespace
from both ends. -/
def trimL (s : List Char) : List Char :=
  ((s.dropWhile pyWs).reverse.dropWhile pyWs).reverse

/-! ## Model of `json.loads`

A recursive-descent parser for the JSON fragment the backend actually
exchanges (objects, arrays, strings with the common escapes, integer
numbers, `true`/`false`/`null`).  `json_loads` returns `none` where
Python's `json.loads` raises `json.JSONDecodeError`. -/

/-- Skip insignificant JSON whitespace. -/
def skipWs : List Char → List Char
  | [] => []
  | c :: rest => if pyWs c then skipWs rest else c :: rest

/-- Parse the remainder of a JSON string literal (the opening quote already
consumed), accumulating characters in reverse. -/
def parseStrAux : List Char → List Char → Option (String × List Char)
  | _, [] => none
  | acc, '"' :: rest => some (String.mk acc.reverse, rest)
  | acc, '\\' :: e :: rest =>
    match e with
    | '"' => parseStrAux ('"' :: acc) rest
    | '\\' => parseStrAux ('\\' :: acc) rest
    | '/' => parseStrAux ('/' :: acc) rest
    | 'n' => parseStrAux ('\n' :: acc) rest
    | 't' => parseStrAux ('\t' :: acc) rest
    | 'r' => parseStrAux ('\r' :: acc) rest
    | _ => none
  | acc, c :: rest => parseStrAux (c :: acc) rest

/-- Parse a run of decimal digits into a natural number. -/
def parseDigits : Nat → List Char → Option (Nat × List Char)
  | acc, c :: rest =>
    if c.isDigit then
      match parseDigits (acc * 10 + (c.toNat - 48)) rest with
      | some r => some r
      | none => some (acc * 10 + (c.toNat - 48), rest)
    else none
  | _, [] => none

/-- Parse an integer JSON number (optional leading minus). -/
def parseNum : List Char → Option (Int × List Char)
  | '-' :: rest =>
    match parseDigits 0 rest with
    | some (n, rest') => some (-(n : Int), rest')
    | none => none
  | cs =>
    match parseDigits 0 cs with
    | some (n, rest') => some ((n : Int), rest')
    | none => none

mutual

/-- Parse one JSON value.  `fuel` bounds the nesting/iteration depth; every
recursive call consumes at least one input character, so any fuel larger
than the input length is enough. -/
def parseVal : Nat → List Char → Option (PyVal × List Char)
  | 0, _ => none
  | fuel + 1, cs =>
    match skipWs cs with
    | '{' :: rest =>
      (match skipWs rest with
       | '}' :: rest' => some (.dict [], rest')
       | rest' =>
         match parseMembers fuel rest' with
         | some (ms, rest'') => some (.dict ms, rest'')
         | none => none)
    | '[' :: rest =>
      (match skipWs rest with
       | ']' :: rest' => some (.list [], rest')
       | rest' =>
         match parseItems fuel rest' with
         | some (xs, rest'') => some (.list xs, rest'')
         | none => none)
    | '"' :: rest =>
      (match parseStrAux [] rest with
       | some (s, rest') => some (.str s, rest')
       | none => none)
    | 't' :: 'r' :: 'u' :: 'e' :: rest => some (.bool true, rest)
    | 'f' :: 'a' :: 'l' :: 's' :: 'e' :: rest => some (.bool false, rest)
    | 'n' :: 'u' :: 'l' :: 'l' :: rest => some (.null, rest)
    | cs' =>
      match parseNum cs' with
      | some (n, rest) => some (.int n, rest)
      | none => none

/-- Parse the members of a JSON object after its `{` (first key expected). -/
def parseMembers : Nat → List Char → Option (List (String × PyVal) × List Char)
  | 0, _ => none
  | fuel + 1, cs =>
    match skipWs cs with
    | '"' :: rest =>
      (match parseStrAux [] rest with
       | some (k, rest') =>
         (match skipWs rest' with
          | ':' :: rest'' =>
            (match parseVal fuel rest'' with
             | some (v, rest3) =>
               (match skipWs rest3 with
                | ',' :: rest4 =>
                  (match parseMembers fuel rest4 with
                   | some (ms, rest5) => some ((k, v) :: ms, rest5)
                   | none => none)
                | '}' :: rest4 => some ([(k, v)], rest4)
                | _ => none)
             | none => none)
          | _ => none)
       | none => none)
    | _ => none

/-- Parse the items of a JSON array after its `[` (first item expected). -/
def parseItems : Nat → List Char → Option (List PyVal × List Char)
  | 0, _ => none
  | fuel + 1, cs =>
    match parseVal fuel cs with
    | some (v, rest) =>
      (match skipWs rest with
       | ',' :: rest' =>
         (match parseItems fuel rest' with
          | some (xs, rest'') => some (v :: xs, rest'')
          | none => none)
       | ']' :: rest' => some ([v], rest')
       | _ => none)
    | none => none

end

/-- Model of Python's `json.loads` on the JSON fragment above: parse one
value and require only whitespace to follow; `none` models a raised
`json.JSONDecodeError`. -/
def json_loads (s : String) : Option PyVal :=
  match parseVal (s.length + 2) s.data with
  | some (v, rest) => if skipWs rest = [] then some v else none
  | none => none

/-! ## The three markdown-fence-stripping call sites

`chat_strip` embeds `ai_agent.py` lines 148–156 (the cleanup before
`json.loads` in `process_chat`); `analyst_strip` embeds
`financial_analyst.py` lines 147–151 (in `analyze_news`) and `pdca_strip`
lines 247–250 (in `run_pdca_check`).  Python's `str.strip()` is modelled
by `trimL` (the texts involved are ASCII). -/

/-- Index (0-based) of the start of the last occurrence of `pat` in `s`,
or `none` if `pat` does not occur. -/
def lastOccur (pat : List Char) : List Char → Option Nat
  | [] => none
  | c :: rest =>
    match lastOccur pat rest with
    | some i => some (i + 1)
    | none => if pat.isPrefixOf (c :: rest) then some 0 else none

/-- Model of Python `s.rsplit(pat, 1)[0]`: everything before the last
occurrence of `pat`, or all of `s` when `pat` does not occur. -/
def rsplitBefore (pat : List Char) (s : List Char) : List Char :=
  match lastOccur pat s with
  | some i => s.take i
  | none => s

/-- Model of Python `s.split("\n", 1)[1]`: the part after the first
newline; `none` models the `IndexError` raised when `s` has no newline. -/
def splitAfterNL : List Char → Option (List Char)
  | [] => none
  | '\n' :: rest => some rest
  | _ :: rest => splitAfterNL rest

/-- The fence stripping of `process_chat`'s final-response extraction
(`ai_agent.py` 148–156): trim; drop a leading ```` ```json ```` (7 chars)
or ```` ``` ```` (3 chars); drop a trailing ```` ``` ```` if present;
trim again. -/
def chat_strip (text : String) : String :=
  let raw := trimL text.data
  let raw := if "```json".data.isPrefixOf raw then raw.drop 7
             else if "```".data.isPrefixOf raw then raw.drop 3
             else raw
  let raw := if "```".data.isSuffixOf raw then raw.take (raw.length - 3) else raw
  String.mk (trimL raw)

/-- The fence stripping of `analyze_news` (`financial_analyst.py`
147–151): trim; if the text starts with ```` ``` ````, drop the first
line, cut everything from the last ```` ``` ```` on, and trim.  `none`
models the `IndexError` raised by `split("\n", 1)[1]` when the fenced
text has no newline. -/
def analyst_strip (text : String) : Option String :=
  let t := trimL text.data
  if "```".data.isPrefixOf t then
    match splitAfterNL t with
    | some rest => some (String.mk (trimL (rsplitBefore "```".data rest)))
    | none => none
  else some (String.mk t)

/-- The fence stripping of `run_pdca_check` (`financial_analyst.py`
247–250); the source lines are identical to those of `analyze_news`. -/
def pdca_strip (text : String) : Option String :=
  let t := trimL text.data
  if "```".data.isPrefixOf t then
    match splitAfterNL t with
    | some rest => some (String.mk (trimL (rsplitBefore "```".data rest)))
    | none => none
  else some (String.mk t)

/-! ## Schema Bridge (`ai_agent.py` 64–76, `convert_schema`) -/

/-- Model of Python `str.upper()` on the ASCII type tags the schemas
carry. -/
def py_upper (s : String) : String :=
  String.mk (s.data.map Char.toUpper)

mutual

/-- `convert_schema` (`ai_agent.py` 64–76): rebuild the schema dict entry
by entry via `convert_entry`. -/
def convert_schema : List (String × PyVal) → List (String × PyVal)
  | [] => []
  | (k, v) :: rest => (k, convert_entry k v) :: convert_schema rest

/-- One entry of `convert_schema`'s loop: a string under key `"type"` is
uppercased; a dict value recurses; anything else — including a list under
`"properties"`, which the source deliberately passes through — is kept
unchanged. -/
def convert_entry : String → PyVal → PyVal
  | "type", .str s => .str (py_upper s)
  | _, .dict d => .dict (convert_schema d)
  | _, v => v

end

/-! ## Tool-Use Loop (`ai_agent.py` 106–142, inside `process_chat`)

The Gemini client and the MCP session are external collaborators: the
model is a function from the accumulated contents to a response, and the
tool provider a function from a call to either result content texts or a
raised exception's text. -/

/-- A part of a conversation turn: plain text, or a function response
built by `types.Part.from_function_response(name, response)` with a
string-valued response dict. -/
inductive GPart where
  | text : String → GPart
  | funcResponse : String → List (String × String) → GPart

/-- One conversation turn (`types.Content`): a role and its parts. -/
structure GContent where
  role : String
  parts : List GPart

/-- A tool-call request emitted by the model (`fc.name`, `fc.args`; the
args may be absent, which the source replaces by `{}` via `or {}`). -/
structure FuncCall where
  name : String
  args : Option (List (String × PyVal))

/-- A model response as the loop consumes it: its text (`""` models both
an empty text and an absent one — both falsy in Python), the tool-call
requests, and the candidate content appended to the history when
present. -/
structure ModelResponse where
  text : String
  function_calls : List FuncCall
  content : Option GContent

/-- The body of the per-call loop (`ai_agent.py` 119–131): invoke the
tool provider; on success take the first content text (or `"Success"`
when the result has no content) as a `result` response, on a raised
exception a `error` response carrying the exception text. -/
def mk_tool_part (callTool : String → List (String × PyVal) → Except String (List String))
    (fc : FuncCall) : GPart :=
  match callTool fc.name (fc.args.getD []) with
  | .ok content =>
    let res_text := match content.head? with
      | some t => t
      | none => "Success"
    .funcResponse fc.name [("result", res_text)]
  | .error e => .funcResponse fc.name [("error", e)]

/-- One round's tool execution (`ai_agent.py` 118–131): every requested
call produces exactly one response part. -/
def exec_round (callTool : String → List (String × PyVal) → Except String (List String))
    (fcs : List FuncCall) : List GPart :=
  fcs.map (mk_tool_part callTool)

/-- One iteration of the `while response.function_calls:` loop
(`ai_agent.py` 113–142): append the model's candidate content when
present, execute the round's tool calls, batch all results into a single
`role="tool"` turn, and call the model again on the grown history. -/
def tool_loop_step (model : List GContent → ModelResponse)
    (callTool : String → List (String × PyVal) → Except String (List String))
    (st : List GContent × ModelResponse) : List GContent × ModelResponse :=
  let contents := match st.2.content with
    | some c => st.1 ++ [c]
    | none => st.1
  let contents := contents ++ [⟨"tool", exec_round callTool st.2.function_calls⟩]
  (contents, model contents)

/-- The loop after `n` iterations: the first model call (`ai_agent.py`
106) followed by `n` executions of the loop body, each guarded by the
`while` condition (an empty `function_calls` stops the loop, so a
finished state is a fixed point). -/
def tool_loop_run (model : List GContent → ModelResponse)
    (callTool : String → List (String × PyVal) → Except String (List String))
    (init : List GContent) : Nat → List GContent × ModelResponse
  | 0 => (init, model init)
  | n + 1 =>
    let st := tool_loop_run model callTool init n
    if st.2.function_calls.isEmpty then st else tool_loop_step model callTool st

/-- The final response extraction of `process_chat` (`ai_agent.py`
144–160), applied to the final model text (`""` for a falsy
`response.text`): strip fences, `json.loads`, and on `JSONDecodeError`
fall back to the raw text with default emotion/action; with no text at
all, a fixed apology. -/
def process_chat_reply (text : String) : PyVal :=
  if text = "" then
    .dict [("text", .str "返答がありませんでした。"), ("emotion", .str "default"),
           ("action", .str "none")]
  else
    match json_loads (chat_strip text) with
    | some v => v
    | none => .dict [("text", .str text), ("emotion", .str "default"), ("action", .str "none")]

/-! ## Financial analyst (`financial_analyst.py`)

The persisted analysis store is embedded as a list of
`(filename key, loaded record)` pairs: one JSON file per record, keyed by
its minute-granularity timestamp string, here abstracted to a `Nat` key
ordered like the filenames.  The learning-notes log is the decoded JSON
list held in `learning_notes.json`. -/

/-- The append-and-bound step of `run_pdca_check`
(`financial_analyst.py` 260–264): append the new note, then keep only the
last 20 (`notes[-20:]`) when the log exceeds 20 entries. -/
def append_learning_note (notes : List PyVal) (note : PyVal) : List PyVal :=
  let notes := notes ++ [note]
  if notes.length > 20 then notes.drop (notes.length - 20) else notes

/-- `sorted(files, reverse=True)`: the store's files in descending key
order (`financial_analyst.py` 199). -/
def sortedDesc (store : List (Nat × PyVal)) : List (Nat × PyVal) :=
  store.insertionSort (fun a b => b.1 ≤ a.1)

/-- `get_analysis_history` (`financial_analyst.py` 197–209): the last `n`
analysis records, newest first.  (The embedding keeps each record paired
with its filename key; per-file read errors, which the source skips, are
outside the store model.) -/
def get_analysis_history (store : List (Nat × PyVal)) (n : Nat) : List (Nat × PyVal) :=
  (sortedDesc store).take n

/-- The record `run_pdca_check` anchors its retrospection on
(`financial_analyst.py` 214–220): `history[-1]` of `get_analysis_history(5)`,
provided at least 2 records exist. -/
def pdca_past_analysis (store : List (Nat × PyVal)) : Option (Nat × PyVal) :=
  let history := get_analysis_history store 5
  if history.length < 2 then none else history.getLast?

/-- `run_pdca_check` (`financial_analyst.py` 212–271) as a transformation
of the learning-notes log.  `modelResp` is the retrospection model call's
text, `none` modelling a raised exception; a stripping `IndexError` or a
`json.loads` failure is caught by the enclosing `except` and drops the
note, leaving the log untouched. -/
def run_pdca_check (store : List (Nat × PyVal)) (modelResp : Option String)
    (notes : List PyVal) : List PyVal :=
  let history := get_analysis_history store 5
  if history.length < 2 then notes
  else
    match modelResp with
    | none => notes
    | some t =>
      match pdca_strip t with
      | none => notes
      | some stripped =>
        match json_loads stripped with
        | none => notes
        | some note => append_learning_note notes note

/-- The fallback analysis record of `analyze_news`
(`financial_analyst.py` 160–167): neutral sentiment, the error text in a
dedicated `error` field. -/
def analyze_fallback (now : String) (err : String) : PyVal :=
  .dict [("timestamp", .str now),
         ("speech_summary", .str "ニュース分析でエラーが発生しました。次のサイクルで再試行します。"),
         ("market_sentiment", .str "neutral"),
         ("predictions", .list []),
         ("risk_factors", .list [.str "分析エラー"]),
         ("error", .str err)]

/-- Python dict item assignment `d[k] = v`: overwrite in place when the
key exists, else append. -/
def dictSet (d : List (String × PyVal)) (k : String) (v : PyVal) : List (String × PyVal) :=
  if d.any (fun e => e.1 == k) then d.map (fun e => if e.1 == k then (k, v) else e)
  else d ++ [(k, v)]

/-- `analyze_news` (`financial_analyst.py` 121–167) as a function of the
news count, the current time, and the model call's outcome (`.error e`
modelling a raised exception with text `e`).  A stripping `IndexError`, a
`json.loads` failure, or a non-dict parse (on which the
`analysis["timestamp"] = ...` assignment raises `TypeError`) all reach
the same `except` and produce the fallback record; the embedded error
texts for those internal exceptions are fixed markers. -/
def analyze_news (newsCount : Nat) (now : String) (modelResp : Except String String) : PyVal :=
  match modelResp with
  | .error e => analyze_fallback now e
  | .ok t =>
    match analyst_strip t with
    | none => analyze_fallback now "IndexError"
    | some stripped =>
      match json_loads stripped with
      | none => analyze_fallback now "JSONDecodeError"
      | some (.dict fields) =>
        .dict (dictSet (dictSet fields "timestamp" (.str now)) "news_count" (.int newsCount))
      | some _ => analyze_fallback now "TypeError"

/-- `save_analysis` (`financial_analyst.py` 170–180): persist one record
under its timestamp-derived key. -/
def save_analysis (store : List (Nat × PyVal)) (key : Nat) (a : PyVal) : List (Nat × PyVal) :=
  store ++ [(key, a)]

/-- The mutable on-disk state the analysis pipeline reads and writes. -/
structure AnalystState where
  analyses : List (Nat × PyVal)
  notes : List PyVal

/-- `run_analysis_cycle` (`financial_analyst.py` 274–291), with the
external effects as parameters: first the PDCA check (reading the
pre-cycle store and rewriting the notes log), then the fresh fetch
(`newsCount` items), the analysis model call, and the persistence of the
new record under the fresh timestamp key `newKey`. -/
def run_analysis_cycle (st : AnalystState) (pdcaResp : Option String) (newsCount : Nat)
    (analysisResp : Except String String) (now : String) (newKey : Nat) :
    AnalystState × PyVal :=
  let notes1 := run_pdca_check st.analyses pdcaResp st.notes
  let analysis := analyze_news newsCount now analysisResp
  let analyses2 := save_analysis st.analyses newKey analysis
  (⟨analyses2, notes1⟩, analysis)

/-! ## Helper lemmas -/

theorem convert_schema_nil : convert_schema [] = [] := by
  rw [convert_schema.eq_def]

theorem convert_schema_cons (k : String) (v : PyVal) (rest : List (String × PyVal)) :
    convert_schema ((k, v) :: rest) = (k, convert_entry k v) :: convert_schema rest := by
  rw [convert_schema.eq_def]

theorem convert_entry_type_str (s : String) :
    convert_entry "type" (.str s) = .str (py_upper s) := by
  rw [convert_entry.eq_def]
  split
  · rename_i s' h1 h2
    injection h2 with h
    rw [h]
  · rename_i d h
    exact PyVal.noConfusion h
  · rename_i hd hs
    exact (hs s rfl rfl).elim

theorem convert_entry_dict (k : String) (d : List (String × PyVal)) :
    convert_entry k (.dict d) = .dict (convert_schema d) := by
  rw [convert_entry.eq_def]
  split
  · rename_i s' h
    exact PyVal.noConfusion h
  · rename_i d' h
    injection h with hh
    rw [hh]
  · rename_i hd hs
    exact (hd d rfl).elim

theorem convert_entry_other (k : String) (v : PyVal)
    (h1 : ∀ s, k = "type" → v ≠ .str s) (h2 : ∀ d, v ≠ .dict d) :
    convert_entry k v = v := by
  rw [convert_entry.eq_def]
  split
  · rename_i s'
    exact (h1 s' rfl rfl).elim
  · rename_i d'
    exact (h2 d' rfl).elim
  · rfl

theorem upper_range_aux (d : Char) (hd : 97 ≤ d.toNat ∧ d.toNat ≤ 122) :
    (Char.ofNat (d.toNat - 32)).toNat ≤ 90 := by
  obtain ⟨h1, h2⟩ := hd
  have h65 : 65 ≤ d.toNat - 32 := by omega
  have h90 : d.toNat - 32 ≤ 90 := by omega
  generalize hm : d.toNat - 32 = m at h65 h90 ⊢
  interval_cases m <;> decide

theorem toUpper_toUpper (c : Char) : c.toUpper.toUpper = c.toUpper := by
  by_cases h : c.toNat ≥ 97 ∧ c.toNat ≤ 122
  · have h1 : c.toUpper = Char.ofNat (c.toNat - 32) := by
      simp only [Char.toUpper]
      rw [if_pos h]
    have h2 := upper_range_aux c ⟨h.1, h.2⟩
    have h3 : (Char.ofNat (c.toNat - 32)).toUpper = Char.ofNat (c.toNat - 32) := by
      simp only [Char.toUpper]
      rw [if_neg]
      omega
    rw [h1, h3]
  · have h1 : c.toUpper = c := by
      simp only [Char.toUpper]
      rw [if_neg h]
    rw [h1, h1]

theorem py_upper_idem (s : String) : py_upper (py_upper s) = py_upper s := by
  show String.mk ((s.data.map Char.toUpper).map Char.toUpper) = String.mk (s.data.map Char.toUpper)
  rw [List.map_map]
  congr 1
  exact List.map_congr_left (fun c _ => toUpper_toUpper c)

/-- The Schema Bridge contract as the spec words it: entry by entry, a
string-valued `type` entry is case-transformed, an object-valued entry is
transformed recursively, and every other entry — including a `properties`
entry holding a sequence — is preserved exactly. -/
inductive BridgeSpec : List (String × PyVal) → List (String × PyVal) → Prop where
  | nil : BridgeSpec [] []
  | typeStr {rest rest' : List (String × PyVal)} (s : String) :
      BridgeSpec rest rest' →
      BridgeSpec (("type", .str s) :: rest) (("type", .str (py_upper s)) :: rest')
  | dictRec {rest rest' d d' : List (String × PyVal)} (k : String) :
      BridgeSpec d d' → BridgeSpec rest rest' →
      BridgeSpec ((k, .dict d) :: rest) ((k, .dict d') :: rest')
  | keep {rest rest' : List (String × PyVal)} (k : String) (v : PyVal) :
      (∀ s, k = "type" → v ≠ .str s) →
      (∀ d, v ≠ .dict d) →
      BridgeSpec rest rest' →
      BridgeSpec ((k, v) :: rest) ((k, v) :: rest')

theorem bridge_spec_holds : ∀ schema, BridgeSpec schema (convert_schema schema) :=
  convert_schema.induct
    (fun s => BridgeSpec s (convert_schema s))
    (fun k v => ∀ rest rest', BridgeSpec rest rest' →
       BridgeSpec ((k, v) :: rest) ((k, convert_entry k v) :: rest'))
    (fun s rest rest' h => by
      rw [convert_entry_type_str]
      exact .typeStr s h)
    (fun x d ih rest rest' h => by
      rw [convert_entry_dict]
      exact .dictRec x ih h)
    (fun x v h1 h2 rest rest' h => by
      rw [convert_entry_other x v h1 h2]
      exact .keep x v h1 h2 h)
    .nil
    (fun k v rest m2 m1 => by
      show BridgeSpec ((k, v) :: rest) (convert_schema ((k, v) :: rest))
      rw [convert_schema_cons]
      exact m2 rest (convert_schema rest) m1)

theorem convert_schema_keys : ∀ s : List (String × PyVal),
    (convert_schema s).map Prod.fst = s.map Prod.fst := by
  intro s
  induction s with
  | nil => rw [convert_schema_nil]
  | cons e rest ih =>
    obtain ⟨k, v⟩ := e
    rw [convert_schema_cons]
    simp [ih]

theorem convert_schema_list_entry (k : String) (l : List PyVal) (rest : List (String × PyVal)) :
    convert_schema ((k, PyVal.list l) :: rest) = (k, PyVal.list l) :: convert_schema rest := by
  rw [convert_schema_cons,
    convert_entry_other k (.list l) (fun s _ h => PyVal.noConfusion h)
      (fun d h => PyVal.noConfusion h)]

/-- C4: the Schema Bridge output differs from the input only in that
string-valued `type` entries are uppercased; object-valued entries recurse,
a `properties` entry holding a sequence is passed through unchanged rather
than failing, and every other entry (and every key) is preserved exactly. -/
theorem claim_C4_schema_bridge : ∀ schema : List (String × PyVal),
    BridgeSpec schema (convert_schema schema) ∧
    (convert_schema schema).map Prod.fst = schema.map Prod.fst ∧
    ∀ k l rest, convert_schema ((k, PyVal.list l) :: rest) =
      (k, PyVal.list l) :: convert_schema rest :=
  fun schema =>
    ⟨bridge_spec_holds schema, convert_schema_keys schema, convert_schema_list_entry⟩

/-- C5: the Schema Bridge is idempotent: `bridge(bridge(x)) = bridge(x)`. -/
theorem claim_C5_schema_bridge_idem :
    ∀ schema, convert_schema (convert_schema schema) = convert_schema schema :=
  convert_schema.induct
    (fun s => convert_schema (convert_schema s) = convert_schema s)
    (fun k v => convert_entry k (convert_entry k v) = convert_entry k v)
    (fun s => by
      show convert_entry "type" (convert_entry "type" (.str s)) = convert_entry "type" (.str s)
      rw [convert_entry_type_str s, convert_entry_type_str (py_upper s), py_upper_idem])
    (fun x d ih => by
      show convert_entry x (convert_entry x (.dict d)) = convert_entry x (.dict d)
      rw [convert_entry_dict, convert_entry_dict,
        (ih : convert_schema (convert_schema d) = convert_schema d)])
    (fun x v h1 h2 => by
      show convert_entry x (convert_entry x v) = convert_entry x v
      rw [convert_entry_other x v h1 h2, convert_entry_other x v h1 h2])
    (by
      show convert_schema (convert_schema []) = convert_schema []
      simp [convert_schema_nil])
    (fun k v rest m2 m1 => by
      show convert_schema (convert_schema ((k, v) :: rest)) = convert_schema ((k, v) :: rest)
      rw [convert_schema_cons, convert_schema_cons,
        (m2 : convert_entry k (convert_entry k v) = convert_entry k v),
        (m1 : convert_schema (convert_schema rest) = convert_schema rest)])

/-- C3: the Response Normalizer parses the fenced JSON example to the
expected structured reply; an unparseable input falls back to the raw
model output with `emotion="default"`, `action="none"`; and with no model
text at all the result is the fixed apology reply. -/
theorem claim_C3_response_normalizer :
    process_chat_reply "```json\n\x7b\"text\":\"hi\",\"emotion\":\"joy\",\"action\":\"nod\"\x7d\n```" =
      .dict [("text", .str "hi"), ("emotion", .str "joy"), ("action", .str "nod")] ∧
    process_chat_reply "not json" =
      .dict [("text", .str "not json"), ("emotion", .str "default"), ("action", .str "none")] ∧
    process_chat_reply "" =
      .dict [("text", .str "返答がありませんでした。"), ("emotion", .str "default"),
             ("action", .str "none")] :=
  ⟨rfl, rfl, rfl⟩

/-- C10: whenever the final model text, after fence-stripping, parses as
JSON, `process_chat` returns the parsed value verbatim with no shape
validation — in particular some parseable model outputs produce a reply
that is not an object at all. -/
theorem claim_C10_no_validation :
    (∀ (s : String) (v : PyVal), s ≠ "" → json_loads (chat_strip s) = some v →
      process_chat_reply s = v) ∧
    (∃ s v, json_loads (chat_strip s) = some v ∧ process_chat_reply s = v ∧
      ∀ fields, v ≠ PyVal.dict fields) := by
  constructor
  · intro s v hne hparse
    rw [process_chat_reply, if_neg hne, hparse]
  · refine ⟨"[1, 2]", .list [.int 1, .int 2], rfl, rfl, fun fields h => PyVal.noConfusion h⟩

/-- Witness for C10: a concrete parseable model output (a JSON array) is
returned verbatim as the chat reply. -/
theorem claim_C10_witness :
    process_chat_reply "[1, 2]" = PyVal.list [.int 1, .int 2] :=
  claim_C10_no_validation.1 "[1, 2]" (PyVal.list [.int 1, .int 2])
    (by decide) rfl

/-- C9 counterexample: on a text carrying a trailing fence with no leading
fence, the chat path's stripping removes the fence while the analyst
path's leaves it in place, and the two parse outcomes then differ — the
three call sites do not implement one and the same stripping discipline. -/
theorem claim_C9_counterexample :
    analyst_strip "\x7b\"a\":1\x7d\n```" ≠ some (chat_strip "\x7b\"a\":1\x7d\n```") ∧
    json_loads (chat_strip "\x7b\"a\":1\x7d\n```") ≠
      (analyst_strip "\x7b\"a\":1\x7d\n```").bind json_loads := by
  constructor
  · decide
  · have h1 : json_loads (chat_strip "\x7b\"a\":1\x7d\n```") = some (.dict [("a", .int 1)]) := rfl
    have h2 : (analyst_strip "\x7b\"a\":1\x7d\n```").bind json_loads = none := rfl
    rw [h1, h2]
    exact fun h => Option.noConfusion h

/-- C9 amended: the two financial-analyst call sites (analysis pipeline
and PDCA store) implement one and the same stripping discipline, but the
chat path's stripping differs from theirs on some inputs (a trailing
fence with no leading fence), so only those two sites share a
discipline. -/
theorem claim_C9_amended_strip_sites :
    (∀ s : String, analyst_strip s = pdca_strip s) ∧
    analyst_strip "\x7b\"a\":1\x7d\n```" ≠ some (chat_strip "\x7b\"a\":1\x7d\n```") :=
  ⟨fun _ => rfl, by decide⟩

/-- C2: in every tool-call round the number of results equals the number
of requests (each request yields exactly the result of its own call), a
provider-side exception is converted into a failure result carrying the
error text without aborting the round, and the round's results are
batched into a single appended `role="tool"` turn. -/
theorem claim_C2_round_results :
    ∀ (callTool : String → List (String × PyVal) → Except String (List String))
      (fcs : List FuncCall),
    (exec_round callTool fcs).length = fcs.length ∧
    (∀ i (h : i < fcs.length) (h' : i < (exec_round callTool fcs).length),
      (exec_round callTool fcs).get ⟨i, h'⟩ = mk_tool_part callTool (fcs.get ⟨i, h⟩)) ∧
    (∀ (fc : FuncCall) (e : String), callTool fc.name (fc.args.getD []) = Except.error e →
      mk_tool_part callTool fc = .funcResponse fc.name [("error", e)]) ∧
    (∀ (model : List GContent → ModelResponse) (st : List GContent × ModelResponse),
      ∃ pre, (tool_loop_step model callTool st).1 =
        pre ++ [⟨"tool", exec_round callTool st.2.function_calls⟩]) := by
  intro callTool fcs
  refine ⟨List.length_map fcs (mk_tool_part callTool), ?_, ?_, ?_⟩
  · intro i h h'
    simp only [exec_round, List.get_eq_getElem, List.getElem_map]
  · intro fc e he
    unfold mk_tool_part
    rw [he]
  · intro model st
    exact ⟨_, rfl⟩

/-- Witness for C2: a concrete failing provider call is converted into a
failure result carrying the error text, and a one-call round yields
exactly one result. -/
theorem claim_C2_witness :
    mk_tool_part (fun _ _ => Except.error "boom") ⟨"t", none⟩ =
      .funcResponse "t" [("error", "boom")] ∧
    (exec_round (fun _ _ => Except.error "boom") [⟨"t", none⟩]).length = 1 :=
  ⟨(claim_C2_round_results (fun _ _ => Except.error "boom") [⟨"t", none⟩]).2.2.1
      ⟨"t", none⟩ "boom" rfl,
   ((claim_C2_round_results (fun _ _ => Except.error "boom") [⟨"t", none⟩]).1 : _ = 1)⟩

/-- C1 counterexample: driven by a model that always requests a tool
call, the loop is still running after 10 rounds (and after 11) — the code
imposes no maximum round count at 10 and reports no `ToolLoopExceeded`
error, contrary to the claim. -/
theorem claim_C1_counterexample :
    (tool_loop_run (fun _ => ⟨"", [⟨"t", none⟩], none⟩) (fun _ _ => .ok ["ok"])
        [] 10).2.function_calls ≠ [] ∧
    (tool_loop_run (fun _ => ⟨"", [⟨"t", none⟩], none⟩) (fun _ _ => .ok ["ok"])
        [] 11).2.function_calls ≠ [] := by
  constructor
  · have h : (tool_loop_run (fun _ => ⟨"", [⟨"t", none⟩], none⟩) (fun _ _ => .ok ["ok"])
        [] 10).2.function_calls = [⟨"t", none⟩] := rfl
    rw [h]
    exact List.cons_ne_nil _ _
  · have h : (tool_loop_run (fun _ => ⟨"", [⟨"t", none⟩], none⟩) (fun _ _ => .ok ["ok"])
        [] 11).2.function_calls = [⟨"t", none⟩] := rfl
    rw [h]
    exact List.cons_ne_nil _ _

/-- C1 amended: the `while response.function_calls:` loop imposes no
round bound at all — driven by a model whose every response requests at
least one tool call, the loop condition still holds after any number of
rounds, so the loop never terminates and never reports any error (no
`ToolLoopExceeded` error kind exists in the code). -/
theorem claim_C1_amended_loop_unbounded :
    ∀ (model : List GContent → ModelResponse)
      (callTool : String → List (String × PyVal) → Except String (List String))
      (init : List GContent) (n : Nat),
    (∀ c, (model c).function_calls ≠ []) →
    (tool_loop_run model callTool init n).2.function_calls ≠ [] := by
  intro model callTool init n hm
  induction n with
  | zero => exact hm init
  | succ n ih =>
    show (if (tool_loop_run model callTool init n).2.function_calls.isEmpty then _
          else tool_loop_step model callTool
            (tool_loop_run model callTool init n)).2.function_calls ≠ []
    rw [if_neg (by rw [Bool.not_eq_true, List.isEmpty_eq_false]; exact ih)]
    exact hm _

/-- Witness for C1 (amended): at the concrete always-calling stub model,
after 3 rounds the loop condition still holds. -/
theorem claim_C1_witness :
    (tool_loop_run (fun _ => ⟨"", [⟨"t", none⟩], none⟩) (fun _ _ => .ok ["ok"])
        [] 3).2.function_calls ≠ [] :=
  claim_C1_amended_loop_unbounded (fun _ => ⟨"", [⟨"t", none⟩], none⟩)
    (fun _ _ => .ok ["ok"]) [] 3 (fun _ => List.cons_ne_nil _ _)

/-- C6: the learning-notes log never exceeds 20 entries after an append;
eviction is FIFO (the appended log is the tail-end suffix of the input
log plus the new note); and after 25 sequential appends to an empty log
exactly the most recent 20 notes remain, in oldest-first order. -/
theorem claim_C6_learning_log_bound :
    (∀ (notes : List PyVal) (note : PyVal),
      (append_learning_note notes note).length ≤ 20 ∧
      append_learning_note notes note =
        (notes ++ [note]).drop ((notes ++ [note]).length - 20)) ∧
    List.foldl append_learning_note []
        ((List.range 25).map (fun i => PyVal.int (Int.ofNat i))) =
      ((List.range 25).drop 5).map (fun i => PyVal.int (Int.ofNat i)) := by
  constructor
  · intro notes note
    have hd : append_learning_note notes note =
        (notes ++ [note]).drop ((notes ++ [note]).length - 20) := by
      show (if (notes ++ [note]).length > 20 then
              (notes ++ [note]).drop ((notes ++ [note]).length - 20)
            else notes ++ [note]) =
           (notes ++ [note]).drop ((notes ++ [note]).length - 20)
      by_cases h : (notes ++ [note]).length > 20
      · rw [if_pos h]
      · rw [if_neg h]
        have h0 : (notes ++ [note]).length - 20 = 0 := by omega
        rw [h0, List.drop_zero]
    refine ⟨?_, hd⟩
    rw [hd, List.length_drop]
    omega
  · rfl

instance : IsTotal (Nat × PyVal) (fun a b => b.1 ≤ a.1) :=
  ⟨fun a b => Nat.le_total b.1 a.1⟩

instance : IsTrans (Nat × PyVal) (fun a b => b.1 ≤ a.1) :=
  ⟨fun _ _ _ hab hbc => le_trans hbc hab⟩

theorem sortedDesc_sorted (store : List (Nat × PyVal)) :
    List.Sorted (fun a b => b.1 ≤ a.1) (sortedDesc store) :=
  List.sorted_insertionSort _ store

theorem sortedDesc_perm (store : List (Nat × PyVal)) :
    List.Perm (sortedDesc store) store :=
  List.perm_insertionSort _ store

/-- In a descending-sorted list, the last element has the minimum key. -/
theorem getLast_key_min :
    ∀ (w : List (Nat × PyVal)), List.Sorted (fun a b => b.1 ≤ a.1) w →
    ∀ (hne : w ≠ []) p, p ∈ w → (w.getLast hne).1 ≤ p.1 := by
  intro w
  induction w with
  | nil => intro _ hne; exact absurd rfl hne
  | cons a rest ih =>
    intro hs hne p hp
    cases rest with
    | nil =>
      have hp' : p = a := List.mem_singleton.mp hp
      rw [hp', List.getLast_singleton]
    | cons b rest' =>
      have hs' : List.Sorted (fun a b => b.1 ≤ a.1) (b :: rest') := hs.of_cons
      have hne' : b :: rest' ≠ [] := List.cons_ne_nil _ _
      rw [List.getLast_cons hne']
      rcases List.mem_cons.mp hp with hpa | hp'
      · rw [hpa]
        have hmem : (b :: rest').getLast hne' ∈ b :: rest' := List.getLast_mem hne'
        exact (List.sorted_cons.mp hs).1 _ hmem
      · exact ih hs' hne' p hp'

/-- The anchor record `run_pdca_check` selects, when at least 2 records
are persisted: it exists, it is one of the persisted records, and its key
is minimal within the 5-most-recent window — i.e. it is the oldest among
the 5 most recent records. -/
theorem pdca_anchor_spec (store : List (Nat × PyVal)) (h2 : 2 ≤ store.length) :
    ∃ a, pdca_past_analysis store = some a ∧ a ∈ store ∧
      ∀ p ∈ get_analysis_history store 5, a.1 ≤ p.1 := by
  have hwlen : 2 ≤ (get_analysis_history store 5).length := by
    unfold get_analysis_history
    rw [List.length_take, (sortedDesc_perm store).length_eq]
    omega
  have hne : get_analysis_history store 5 ≠ [] := by
    intro h
    rw [h] at hwlen
    simp at hwlen
  have hsorted : List.Sorted (fun a b => b.1 ≤ a.1) (get_analysis_history store 5) :=
    List.Pairwise.sublist (List.take_sublist 5 (sortedDesc store)) (sortedDesc_sorted store)
  refine ⟨(get_analysis_history store 5).getLast hne, ?_, ?_, ?_⟩
  · unfold pdca_past_analysis
    rw [if_neg (by omega : ¬ (get_analysis_history store 5).length < 2)]
    exact List.getLast?_eq_getLast _ hne
  · have hm1 : (get_analysis_history store 5).getLast hne ∈ get_analysis_history store 5 :=
      List.getLast_mem hne
    have hm2 := List.mem_of_mem_take hm1
    exact (sortedDesc_perm store).mem_iff.mp hm2
  · exact getLast_key_min _ hsorted hne

/-- C7: PDCA `evaluate()` with fewer than 2 persisted records is a no-op
producing zero new notes (and selects no anchor); with at least 2, the
"past prediction" anchor is the oldest among the 5 most recent persisted
records. -/
theorem claim_C7_pdca_requires_two :
    ∀ (store : List (Nat × PyVal)) (resp : Option String) (notes : List PyVal),
    (store.length < 2 →
      run_pdca_check store resp notes = notes ∧ pdca_past_analysis store = none) ∧
    (2 ≤ store.length →
      ∃ a, pdca_past_analysis store = some a ∧ a ∈ store ∧
        ∀ p ∈ get_analysis_history store 5, a.1 ≤ p.1) := by
  intro store resp notes
  constructor
  · intro hlt
    have hwin : (get_analysis_history store 5).length < 2 := by
      unfold get_analysis_history
      rw [List.length_take, (sortedDesc_perm store).length_eq]
      omega
    constructor
    · unfold run_pdca_check
      rw [if_pos hwin]
    · unfold pdca_past_analysis
      rw [if_pos hwin]
  · intro h2
    exact pdca_anchor_spec store h2

/-- Witness for C7: with a single persisted record the check is a no-op,
and with three records (keys 3, 1, 2) an anchor with minimal key in the
window exists. -/
theorem claim_C7_witness :
    (run_pdca_check [(1, PyVal.null)] (some "x") [] = [] ∧
      pdca_past_analysis [(1, PyVal.null)] = none) ∧
    (∃ a, pdca_past_analysis [(3, PyVal.null), (1, PyVal.null), (2, PyVal.null)] = some a ∧
      a ∈ [(3, PyVal.null), (1, PyVal.null), (2, PyVal.null)] ∧
      ∀ p ∈ get_analysis_history [(3, PyVal.null), (1, PyVal.null), (2, PyVal.null)] 5,
        a.1 ≤ p.1) :=
  ⟨(claim_C7_pdca_requires_two [(1, PyVal.null)] (some "x") []).1 (by decide),
   (claim_C7_pdca_requires_two [(3, PyVal.null), (1, PyVal.null), (2, PyVal.null)]
      none []).2 (by decide)⟩

/-- C8: in every analysis cycle the PDCA evaluation runs before the fresh
fetch/analysis/persistence: the cycle's resulting notes log is the PDCA
transformation of the *pre-cycle* store, the new record is persisted into
the pre-cycle store afterwards, and the retrospection anchor is a
pre-existing record — never the record the cycle is about to produce
(its fresh key differs from the anchor's). -/
theorem claim_C8_pdca_before_fetch :
    ∀ (st : AnalystState) (pdcaResp : Option String) (newsCount : Nat)
      (analysisResp : Except String String) (now : String) (newKey : Nat),
    (run_analysis_cycle st pdcaResp newsCount analysisResp now newKey).1.notes =
      run_pdca_check st.analyses pdcaResp st.notes ∧
    (run_analysis_cycle st pdcaResp newsCount analysisResp now newKey).1.analyses =
      save_analysis st.analyses newKey (analyze_news newsCount now analysisResp) ∧
    (2 ≤ st.analyses.length → (∀ p ∈ st.analyses, p.1 ≠ newKey) →
      ∃ a, pdca_past_analysis st.analyses = some a ∧ a ∈ st.analyses ∧ a.1 ≠ newKey) := by
  intro st pdcaResp newsCount analysisResp now newKey
  refine ⟨rfl, rfl, ?_⟩
  intro h2 hfresh
  obtain ⟨a, ha1, ha2, _⟩ := pdca_anchor_spec st.analyses h2
  exact ⟨a, ha1, ha2, hfresh a ha2⟩

/-- Witness for C8: at a concrete two-record pre-cycle store and a fresh
key, the anchor exists, is a pre-cycle record, and is not the new
record. -/
theorem claim_C8_witness :
    ∃ a, pdca_past_analysis [(1, PyVal.null), (2, PyVal.null)] = some a ∧
      a ∈ [(1, PyVal.null), (2, PyVal.null)] ∧ a.1 ≠ 3 :=
  (claim_C8_pdca_before_fetch ⟨[(1, PyVal.null), (2, PyVal.null)], []⟩ none 0
      (Except.error "e") "t" 3).2.2 (by decide) (by decide)
